import Mathlib

/-!
Verification of the rq work-queue core (src/queue.js) against its design
specification.  The Redis store is modelled as association lists keyed by
strings; the queue instance, its derived keys, the lock manager
(lock/unlock with the renewal timer) and the enqueue/dequeue pipelines are
shallowly embedded as pure state-passing functions.
-/

namespace RqModel

/-- A single redis reply: a number or a status string. -/
inductive Reply where
  | num (n : Nat)
  | str (s : String)
deriving DecidableEq

/-- A JavaScript value as delivered to a user callback: a number (e.g. a
task id), a string, or the array of replies of a MULTI/EXEC batch. -/
inductive JVal where
  | num (n : Nat)
  | str (s : String)
  | arr (l : List Reply)
deriving DecidableEq

/-- Modelled from the spec: the `config` module required by src/queue.js is
not under src/.  The spec describes a single "fixed configured interval"
`lockTime`, the server-enforced lock expiry in milliseconds.  It is kept as
an exact rational so that the renewal delay `lockTime / 2` is exactly half
the interval, as JavaScript's real division yields. -/
structure Config where
  lockTime : Rat
deriving DecidableEq

/-- The options hash accepted by the `Rq` constructor (absent fields are the
JavaScript falsy path of `options.host || ...`). -/
structure Options where
  host : Option String
  port : Option Nat
  retry : Option Nat
deriving DecidableEq

/-- The fields a constructed `Rq` queue instance carries (src/queue.js
constructor).  `lockToken` is the per-instance `_lockToken` uuid; it is a
parameter here since uuid generation is an external collaborator. -/
structure Rq where
  host : String
  port : Nat
  queue : String
  retries : Nat
  lockToken : String
deriving DecidableEq

/-- The `Rq` constructor: defaults host/port/retry exactly as the source
(`options.host || '127.0.0.1'`, `options.port || 6327`,
`options.retry || 0`). -/
def Rq.make (queueName : String) (opts : Options) (token : String) : Rq :=
  { host := opts.host.getD "127.0.0.1"
    port := opts.port.getD 6327
    queue := queueName
    retries := opts.retry.getD 0
    lockToken := token }

/-- The namespace `this._prefix = 'rq:' + queueName + ':'`. -/
def Rq.pfx (q : Rq) : String := "rq:" ++ q.queue ++ ":"

/-- `this.keys.id`. -/
def Rq.idKey (q : Rq) : String := q.pfx ++ "id"

/-- `this.keys.waiting`. -/
def Rq.waitingKey (q : Rq) : String := q.pfx ++ "waiting"

/-- `this.keys.working`. -/
def Rq.workingKey (q : Rq) : String := q.pfx ++ "working"

/-- `this.keys.completed`. -/
def Rq.completedKey (q : Rq) : String := q.pfx ++ "completed"

/-- `Rq.prototype.getKeyForId`: `this._prefix + id`.  Task ids are the
numbers produced by INCR; JavaScript stringifies them in decimal. -/
def Rq.getKeyForId (q : Rq) (id : Nat) : String := q.pfx ++ Nat.repr id

/-- The lock key built in `lock`/`unlock`: `this.getKeyForId(id) + ':lock'`. -/
def Rq.lockKeyFor (q : Rq) (id : Nat) : String := q.getKeyForId id ++ ":lock"

/-! ### The store model -/

/-- Lookup in an association list (first binding wins, as a key-value store
with unique keys). -/
def lookupKV {α : Type} : List (String × α) → String → Option α
  | [], _ => none
  | (k2, v) :: rest, k => if k2 = k then some v else lookupKV rest k

/-- Update a binding, removing any previous binding for the key. -/
def updKV {α : Type} (l : List (String × α)) (k : String) (v : α) :
    List (String × α) :=
  (k, v) :: l.filter (fun p => decide (p.1 ≠ k))

/-- Delete a binding. -/
def delKV {α : Type} (l : List (String × α)) (k : String) :
    List (String × α) :=
  l.filter (fun p => decide (p.1 ≠ k))

/-- A string value held at the store together with the PX expiry it was set
with (expiry is enforced by the store; the model records it). -/
structure StrEntry where
  value : String
  ttl : Rat
deriving DecidableEq

/-- The slice of the Redis keyspace the queue uses: string keys (locks),
INCR counters, lists of task ids, and hash records. -/
structure Store where
  strs : List (String × StrEntry)
  counters : List (String × Nat)
  lists : List (String × List Nat)
  hashes : List (String × List (String × String))
deriving DecidableEq

/-- Redis `SET key value PX ttl [NX]` as issued by `Rq.prototype.lock`:
with NX the write happens only when the key is absent and the reply is nil
otherwise; without NX it always overwrites.  The reply is `some "OK"` on a
performed write. -/
def Store.setPxNx (st : Store) (key val : String) (px : Rat) (nx : Bool) :
    Option String × Store :=
  if nx && (lookupKV st.strs key).isSome then (none, st)
  else (some "OK", { st with strs := updKV st.strs key ⟨val, px⟩ })

/-- Redis `INCR key`: missing counters start at 0; returns the new value. -/
def Store.incr (st : Store) (key : String) : Nat × Store :=
  let n := (lookupKV st.counters key).getD 0 + 1
  (n, { st with counters := updKV st.counters key n })

/-- Redis `LPUSH key v`: prepend and return the new length. -/
def Store.lpush (st : Store) (key : String) (v : Nat) : Nat × Store :=
  let l := v :: (lookupKV st.lists key).getD []
  (l.length, { st with lists := updKV st.lists key l })

/-- Redis `HMSET key fields`: set the given fields, keeping other fields of
an existing hash. -/
def Store.hmset (st : Store) (key : String) (fields : List (String × String)) :
    Store :=
  let old := (lookupKV st.hashes key).getD []
  { st with
    hashes := updKV st.hashes key
      (fields ++ old.filter (fun p => (lookupKV fields p.1).isNone)) }

/-- Redis `HGETALL key`: the record, or nil when absent. -/
def Store.hgetall (st : Store) (key : String) :
    Option (List (String × String)) :=
  lookupKV st.hashes key

/-- Redis `BRPOPLPUSH src dst 0`: atomically move the tail of `src` to the
head of `dst` and return it; `none` means the call blocks (no value ever
delivered in this model). -/
def Store.brpoplpush (st : Store) (src dst : String) : Option Nat × Store :=
  let l := (lookupKV st.lists src).getD []
  match l.getLast? with
  | none => (none, st)
  | some v =>
      let st1 := { st with lists := updKV st.lists src l.dropLast }
      (some v,
       { st1 with
         lists := updKV st1.lists dst (v :: (lookupKV st1.lists dst).getD []) })

/-- The Lua script sent by `Rq.prototype.unlock`, evaluated atomically at
the store: `if get KEYS[1] == ARGV[1] then return del KEYS[1] else
return 0 end` (GET of a missing key is nil, which never equals the token). -/
def Store.evalCasDel (st : Store) (key expected : String) : Nat × Store :=
  match lookupKV st.strs key with
  | some e =>
      if e.value = expected then (1, { st with strs := delKV st.strs key })
      else (0, st)
  | none => (0, st)

/-! ### Instance state, events, and the lock manager -/

/-- Modelled from the spec: the error values of src/errors.js are not under
src/.  `couldNotLock` is the "could not lock" error and carries the task id
("surfaced as an `error` notification carrying the task id"); `transport`
stands for an error reported by the store client. -/
inductive QErr where
  | couldNotLock (id : Nat)
  | transport (msg : String)
deriving DecidableEq

/-- An observable notification emitted by the queue instance. -/
inductive Event where
  | error (e : QErr)
deriving DecidableEq

/-- The pending renewal timeout (`self.lockTimeout`): a scheduled call of
`self.lock(id, renew)` to fire `delay` milliseconds later. -/
structure Timer where
  id : Nat
  renew : Bool
  delay : Rat
deriving DecidableEq

/-- The mutable per-instance state relevant to the lock manager: the single
`lockTimeout` field.  (`clearTimeout` sets it to `none`.) -/
structure LState where
  lockTimeout : Option Timer
deriving DecidableEq

/-- `Rq.prototype._isLocked`: `response === 'OK'`. -/
def Rq.isLocked (response : Option String) : Bool :=
  response = some "OK"

/-- The callback body of `Rq.prototype.lock`, given the SET reply `res` it
was invoked with (the instance state `l` already has the timeout cleared,
as `clearTimeout` runs before the SET is issued).  On `_isLocked(res)` it
schedules the renewal `self.lock(id, true)` at `config.lockTime / 2`;
otherwise it emits `couldNotLock id`. -/
def Rq.lockCb (cfg : Config) (l : LState) (id : Nat) (res : Option String) :
    LState × List Event :=
  if Rq.isLocked res then
    ({ l with lockTimeout := some ⟨id, true, cfg.lockTime / 2⟩ }, [])
  else
    (l, [.error (.couldNotLock id)])

/-- The result of one `lock` call: the SET reply passed on to the caller's
callback, plus the updated instance state, store, and emitted events. -/
structure LockOutcome where
  res : Option String
  state : LState
  store : Store
  events : List Event
deriving DecidableEq

/-- `Rq.prototype.lock`: builds `args = [key, token, 'PX', lockTime]`,
appends `'NX'` when `renew` is false, clears the pending timeout, issues
the SET, and runs the callback body. -/
def Rq.lock (cfg : Config) (q : Rq) (l : LState) (st : Store) (id : Nat)
    (renew : Bool) : LockOutcome :=
  let key := q.getKeyForId id ++ ":lock"
  let l1 : LState := { l with lockTimeout := none }
  let s := st.setPxNx key q.lockToken cfg.lockTime (!renew)
  let c := Rq.lockCb cfg l1 id s.1
  { res := s.1, state := c.1, store := s.2, events := c.2 }

/-- Firing the pending renewal timer runs `self.lock(id, true)` (the
function scheduled by `setTimeout` in `lock`). -/
def Timer.fire (cfg : Config) (q : Rq) (l : LState) (st : Store) (t : Timer) :
    LockOutcome :=
  Rq.lock cfg q l st t.id t.renew

/-- The result of one `unlock` call: the script reply (number of keys
deleted), the updated instance state, and the store. -/
structure UnlockOutcome where
  res : Nat
  state : LState
  store : Store
deriving DecidableEq

/-- `Rq.prototype.unlock`: clears the pending timeout, then EVALs the
compare-and-delete script on `getKeyForId(id) + ':lock'` with the
instance's `_lockToken`. -/
def Rq.unlock (q : Rq) (l : LState) (st : Store) (id : Nat) : UnlockOutcome :=
  let l1 : LState := { l with lockTimeout := none }
  let e := st.evalCasDel (q.getKeyForId id ++ ":lock") q.lockToken
  { res := e.1, state := l1, store := e.2 }

/-! ### Enqueue -/

/-- The `multi().lpush(keys.waiting, id).hmset(getKeyForId(id), data).exec()`
batch of `Rq.prototype.enqueue`: a single atomic store transition whose
reply array holds the LPUSH and HMSET replies. -/
def Rq.enqueueBatch (q : Rq) (st : Store) (id : Nat)
    (data : List (String × String)) : JVal × Store :=
  let p := st.lpush q.waitingKey id
  let st2 := p.2.hmset (q.getKeyForId id) data
  (.arr [.num p.1, .str "OK"], st2)

/-- The result of `enqueue`: what the user callback receives (error and
result), the store, and emitted events. -/
structure EnqueueOutcome where
  err : Option QErr
  result : JVal
  store : Store
  events : List Event
deriving DecidableEq

/-- `Rq.prototype.enqueue`: the waterfall INCRs the id key, then runs the
atomic batch; the waterfall's final callback forwards the batch's `exec`
reply (not the id) to the caller's callback. -/
def Rq.enqueue (q : Rq) (st : Store) (data : List (String × String)) :
    EnqueueOutcome :=
  let i := st.incr q.idKey
  let b := Rq.enqueueBatch q i.2 i.1 data
  { err := none, result := b.1, store := b.2, events := [] }

/-! ### Dequeue -/

/-- Modelled from the spec: src/task.js is not under src/.  A Task carries
the claimed id and the data record as loaded (`hgetall` of a missing record
yields nil). -/
structure Task where
  id : Nat
  data : Option (List (String × String))
deriving DecidableEq

/-- The replies the three store calls of the dequeue waterfall deliver to
their callbacks, each a `(err, value)` pair as node redis invokes them.  A
`(none, none)` brpoplpush reply means the blocking call never returned. -/
structure DequeueEnv where
  brpop : Option QErr × Option Nat
  setReply : Option QErr × Option String
  hget : Option QErr × Option (List (String × String))
deriving DecidableEq

/-- The outcome of one dequeue pipeline run: updated instance state, the
events emitted, and the Task the handler was invoked with (if it was). -/
structure DequeueOutcome where
  state : LState
  events : List Event
  handlerArg : Option Task
deriving DecidableEq

/-- The waterfall body of `Rq.prototype.dequeue` as a function of the
replies delivered to its callbacks: step 1 `brpoplpush(waiting, working, 0)`,
step 2 `self.lock(id, false, cb)` (whose own callback runs on the SET
reply), step 3 `_isLocked(result)` guarding `hgetall`, step 4 building the
Task; the final callback emits the error or invokes the handler. -/
def Rq.dequeueRun (cfg : Config) (l : LState) (env : DequeueEnv) :
    DequeueOutcome :=
  match env.brpop.1, env.brpop.2 with
  | some e, _ => { state := l, events := [.error e], handlerArg := none }
  | none, none => { state := l, events := [], handlerArg := none }
  | none, some id =>
      let l1 : LState := { l with lockTimeout := none }
      let c := Rq.lockCb cfg l1 id env.setReply.2
      match env.setReply.1 with
      | some e =>
          { state := c.1, events := c.2 ++ [.error e], handlerArg := none }
      | none =>
          if Rq.isLocked env.setReply.2 then
            match env.hget.1, env.hget.2 with
            | some e, _ =>
                { state := c.1, events := c.2 ++ [.error e], handlerArg := none }
            | none, d =>
                { state := c.1, events := c.2, handlerArg := some ⟨id, d⟩ }
          else
            { state := c.1
              events := c.2 ++ [.error (.couldNotLock id)]
              handlerArg := none }

/-- `Rq.prototype.dequeue` run against the store itself, when every reply
comes from the store with no transport error. -/
def Rq.dequeue (cfg : Config) (q : Rq) (l : LState) (st : Store) :
    DequeueOutcome × Store :=
  match st.brpoplpush q.waitingKey q.workingKey with
  | (none, st1) => ({ state := l, events := [], handlerArg := none }, st1)
  | (some id, st1) =>
      let lo := Rq.lock cfg q l st1 id false
      if Rq.isLocked lo.res then
        ({ state := lo.state
           events := lo.events
           handlerArg := some ⟨id, lo.store.hgetall (q.getKeyForId id)⟩ },
         lo.store)
      else
        ({ state := lo.state
           events := lo.events ++ [.error (.couldNotLock id)]
           handlerArg := none },
         lo.store)

/-- The `typeof handler !== 'function'` check at the top of
`Rq.prototype.dequeue`: either the argument is a function or it is some
other value. -/
inductive HandlerArg where
  | func
  | notFunc (v : JVal)
deriving DecidableEq

/-- A synchronously thrown TypeError. -/
structure ThrownTypeError where
  msg : String
deriving DecidableEq

/-- Entry of `Rq.prototype.dequeue`: a non-function handler throws
`TypeError('handler must be a function')` synchronously, before any store
call; otherwise the waterfall runs. -/
def Rq.dequeueEntry (cfg : Config) (l : LState) (arg : HandlerArg)
    (env : DequeueEnv) : Except ThrownTypeError DequeueOutcome :=
  match arg with
  | .notFunc _ => .error ⟨"handler must be a function"⟩
  | .func => .ok (Rq.dequeueRun cfg l env)

/-! ### The derived-key relation (for collision-freeness) -/

/-- All keys the queue derives from its name and task ids (the keyspace
layout of the design). -/
inductive DerivedKey (q : Rq) : String → Prop where
  | idK : DerivedKey q q.idKey
  | waitingK : DerivedKey q q.waitingKey
  | workingK : DerivedKey q q.workingKey
  | completedK : DerivedKey q q.completedKey
  | recordK (t : Nat) : DerivedKey q (q.getKeyForId t)
  | lockK (t : Nat) : DerivedKey q (q.lockKeyFor t)

/-- The possible shapes of the part of a derived key after the namespace
`rq:Q:`, at the character-list level. -/
def SuffixShape (s : List Char) : Prop :=
  s = "id".data ∨ s = "waiting".data ∨ s = "working".data ∨
    s = "completed".data ∨
    (∃ t : Nat, s = (Nat.repr t).data) ∨
    (∃ t : Nat, s = (Nat.repr t).data ++ ":lock".data)

/-- The current waiting list of a queue at a store. -/
def Store.waitingList (st : Store) (q : Rq) : List Nat :=
  (lookupKV st.lists q.waitingKey).getD []

/-- The id INCR will assign for the next enqueue at a store. -/
def Rq.nextId (q : Rq) (st : Store) : Nat :=
  (lookupKV st.counters q.idKey).getD 0 + 1

/-! ### Concrete instances used by the witnesses -/

/-- A sample configuration: lock expiry 1000 ms. -/
def cfg0 : Config := ⟨1000⟩

/-- Instance state with no pending timer. -/
def l0 : LState := ⟨none⟩

/-- The empty store. -/
def store0 : Store := ⟨[], [], [], []⟩

/-- A sample queue instance. -/
def qA : Rq := Rq.make "jobs" ⟨none, none, none⟩ "token-a"

/-- A second queue instance with a different name. -/
def qB : Rq := Rq.make "mail" ⟨none, none, none⟩ "token-b"

/-- A pending renewal timer for task 1. -/
def timer1 : Timer := ⟨1, true, 500⟩

/-- Instance state holding the task-1 renewal timer. -/
def lT1 : LState := ⟨some timer1⟩

/-- A store where task 7 of `qA` is locked by `qA` itself. -/
def storeOwn7 : Store := ⟨[(qA.lockKeyFor 7, ⟨"token-a", 1000⟩)], [], [], []⟩

/-- A store where task 7 of `qA` is locked under a foreign token. -/
def storeForeign7 : Store := ⟨[(qA.lockKeyFor 7, ⟨"token-x", 1000⟩)], [], [], []⟩

/-- A sample task record. -/
def dataFoo : List (String × String) := [("foo", "bar")]

/-- Dequeue replies for a fully successful claim of task 1. -/
def envOk : DequeueEnv := ⟨(none, some 1), (none, some "OK"), (none, some dataFoo)⟩

/-- Dequeue replies where the first-acquisition SET was refused. -/
def envNoLock : DequeueEnv := ⟨(none, some 1), (none, none), (none, none)⟩

end RqModel

namespace RqModel

/-! ### Association-list lemmas -/

theorem lookupKV_filter_ne {α : Type} (l : List (String × α)) (k k' : String)
    (h : k' ≠ k) :
    lookupKV (l.filter fun p => !decide (p.1 = k)) k' = lookupKV l k' := by
  induction l with
  | nil => rfl
  | cons p rest ih =>
      obtain ⟨pk, pv⟩ := p
      rcases eq_or_ne pk k with hp | hp
      · have hk : k ≠ k' := fun e => h e.symm
        simp [List.filter_cons, hp, lookupKV, hk, ih]
      · simp [List.filter_cons, hp, lookupKV, ih]

theorem lookupKV_filter_self {α : Type} (l : List (String × α)) (k : String) :
    lookupKV (l.filter fun p => !decide (p.1 = k)) k = none := by
  induction l with
  | nil => rfl
  | cons p rest ih =>
      obtain ⟨pk, pv⟩ := p
      rcases eq_or_ne pk k with hp | hp
      · simp [List.filter_cons, hp, ih]
      · simp [List.filter_cons, hp, lookupKV, ih]

theorem lookupKV_updKV_self {α : Type} (l : List (String × α)) (k : String)
    (v : α) : lookupKV (updKV l k v) k = some v := by
  simp [updKV, lookupKV]

theorem lookupKV_updKV_ne {α : Type} (l : List (String × α)) (k k' : String)
    (v : α) (h : k' ≠ k) : lookupKV (updKV l k v) k' = lookupKV l k' := by
  have hk : k ≠ k' := fun e => h e.symm
  simp only [updKV, lookupKV, hk, if_false, decide_not]
  exact lookupKV_filter_ne l k k' h

theorem lookupKV_delKV_self {α : Type} (l : List (String × α)) (k : String) :
    lookupKV (delKV l k) k = none := by
  simp only [delKV, decide_not]
  exact lookupKV_filter_self l k

theorem lookupKV_delKV_ne {α : Type} (l : List (String × α)) (k k' : String)
    (h : k' ≠ k) : lookupKV (delKV l k) k' = lookupKV l k' := by
  simp only [delKV, decide_not]
  exact lookupKV_filter_ne l k k' h

/-! ### Claim theorems -/

/-- C1: `lock` with `renew = false` issues the SET of the lock key to this
instance's token with expiry `config.lockTime` under NX, so it succeeds
exactly when the key is absent (a second first-acquisition attempt on an
already-locked id fails and leaves the store unchanged); with
`renew = true` the same SET is issued without NX and always overwrites. -/
theorem lock_conditional_set (cfg : Config) (q : Rq) (l : LState) (st : Store)
    (id : Nat) :
    ((lookupKV st.strs (q.lockKeyFor id)).isSome = true →
        (Rq.lock cfg q l st id false).res ≠ some "OK" ∧
        (Rq.lock cfg q l st id false).store = st) ∧
    (lookupKV st.strs (q.lockKeyFor id) = none →
        (Rq.lock cfg q l st id false).res = some "OK" ∧
        lookupKV (Rq.lock cfg q l st id false).store.strs (q.lockKeyFor id) =
          some ⟨q.lockToken, cfg.lockTime⟩) ∧
    ((Rq.lock cfg q l st id true).res = some "OK" ∧
      lookupKV (Rq.lock cfg q l st id true).store.strs (q.lockKeyFor id) =
        some ⟨q.lockToken, cfg.lockTime⟩) := by
  refine ⟨?_, ?_, ?_⟩
  · intro h
    rcases Option.isSome_iff_exists.mp h with ⟨e, he⟩
    simp [Rq.lock, Rq.lockKeyFor, Store.setPxNx, he] at *
  · intro h
    simp [Rq.lock, Rq.lockKeyFor, Store.setPxNx, h, lookupKV_updKV_self] at *
  · simp [Rq.lock, Rq.lockKeyFor, Store.setPxNx, lookupKV_updKV_self]

/-- Witness for C1: with the lock key for task 7 already present (under a
foreign token), a first-acquisition `lock` fails and changes nothing. -/
theorem lock_conditional_set_witness :
    (lookupKV storeForeign7.strs (qA.lockKeyFor 7)).isSome = true ∧
    ((Rq.lock cfg0 qA l0 storeForeign7 7 false).res ≠ some "OK" ∧
     (Rq.lock cfg0 qA l0 storeForeign7 7 false).store = storeForeign7) :=
  ⟨by decide, (lock_conditional_set cfg0 qA l0 storeForeign7 7).1 (by decide)⟩

/-- C2: `unlock` is a single atomic compare-and-delete at the store: it
removes the lock key (replying 1) exactly when the key currently holds this
instance's token; under a foreign token or an absent key the whole store is
untouched and the reply is 0; no other key of any kind is ever affected. -/
theorem unlock_compare_and_delete (q : Rq) (l : LState) (st : Store)
    (id : Nat) :
    ((lookupKV st.strs (q.lockKeyFor id)).map StrEntry.value =
        some q.lockToken →
        lookupKV (Rq.unlock q l st id).store.strs (q.lockKeyFor id) = none ∧
        (Rq.unlock q l st id).res = 1) ∧
    ((lookupKV st.strs (q.lockKeyFor id)).map StrEntry.value ≠
        some q.lockToken →
        (Rq.unlock q l st id).store = st ∧ (Rq.unlock q l st id).res = 0) ∧
    (∀ k : String, k ≠ q.lockKeyFor id →
        lookupKV (Rq.unlock q l st id).store.strs k = lookupKV st.strs k) ∧
    ((Rq.unlock q l st id).store.counters = st.counters ∧
     (Rq.unlock q l st id).store.lists = st.lists ∧
     (Rq.unlock q l st id).store.hashes = st.hashes) := by
  rcases hv : lookupKV st.strs (q.lockKeyFor id) with _ | e
  · simp only [Rq.lockKeyFor] at hv
    refine ⟨?_, ?_, ?_, ?_⟩
    · simp [Rq.lockKeyFor, hv]
    · intro _
      simp [Rq.unlock, Store.evalCasDel, hv]
    · intro k hk
      simp [Rq.unlock, Store.evalCasDel, hv]
    · simp [Rq.unlock, Store.evalCasDel, hv]
  · simp only [Rq.lockKeyFor] at hv
    by_cases ht : e.value = q.lockToken
    · refine ⟨?_, ?_, ?_, ?_⟩
      · intro _
        simp [Rq.unlock, Store.evalCasDel, Rq.lockKeyFor, hv, ht,
          lookupKV_delKV_self]
      · intro hne
        exact absurd (by simp [Rq.lockKeyFor, hv, ht]) hne
      · intro k hk
        simp only [Rq.lockKeyFor] at hk
        simp [Rq.unlock, Store.evalCasDel, hv, ht, lookupKV_delKV_ne _ _ _ hk]
      · simp [Rq.unlock, Store.evalCasDel, hv, ht, delKV]
    · refine ⟨?_, ?_, ?_, ?_⟩
      · intro habs
        exact absurd (by simpa [Rq.lockKeyFor, hv] using habs) ht
      · intro _
        simp [Rq.unlock, Store.evalCasDel, hv, ht]
      · intro k hk
        simp [Rq.unlock, Store.evalCasDel, hv, ht]
      · simp [Rq.unlock, Store.evalCasDel, hv, ht]

/-- Witness for C2: with task 7's lock held under a foreign token,
`unlock` leaves the store unchanged and replies 0. -/
theorem unlock_compare_and_delete_witness :
    (lookupKV storeForeign7.strs (qA.lockKeyFor 7)).map StrEntry.value ≠
      some qA.lockToken ∧
    ((Rq.unlock qA l0 storeForeign7 7).store = storeForeign7 ∧
     (Rq.unlock qA l0 storeForeign7 7).res = 0) :=
  ⟨by decide,
   (unlock_compare_and_delete qA l0 storeForeign7 7).2.1 (by decide)⟩

/-- C3: when the store reports the SET succeeded, `lock` schedules the
renewal — a recursive `lock(id, true)` call, as `Timer.fire` records — at
exactly half the configured expiry interval, emitting nothing; when the
store refuses the SET, a "could not lock" error for that id is emitted and
no renewal is scheduled (the timeout stays cleared, so a failed renewal
ends the renewal loop for that task). -/
theorem lock_renewal_scheduling (cfg : Config) (q : Rq) (l : LState)
    (st : Store) (id : Nat) (renew : Bool) :
    ((Rq.lock cfg q l st id renew).res = some "OK" →
        (Rq.lock cfg q l st id renew).state.lockTimeout =
          some ⟨id, true, cfg.lockTime / 2⟩ ∧
        (Rq.lock cfg q l st id renew).events = []) ∧
    ((Rq.lock cfg q l st id renew).res ≠ some "OK" →
        (Rq.lock cfg q l st id renew).events =
          [.error (.couldNotLock id)] ∧
        (Rq.lock cfg q l st id renew).state.lockTimeout = none) ∧
    (∀ t : Timer, (Rq.lock cfg q l st id renew).state.lockTimeout = some t →
        ∀ (l2 : LState) (st2 : Store),
          Timer.fire cfg q l2 st2 t = Rq.lock cfg q l2 st2 id true) := by
  by_cases hc :
      (!renew && (lookupKV st.strs (q.getKeyForId id ++ ":lock")).isSome) = true
  · refine ⟨?_, ?_, ?_⟩
    · intro h
      simp [Rq.lock, Store.setPxNx, hc] at h
    · intro _
      simp [Rq.lock, Store.setPxNx, hc, Rq.lockCb, Rq.isLocked]
    · intro t ht
      simp [Rq.lock, Store.setPxNx, hc, Rq.lockCb, Rq.isLocked] at ht
  · refine ⟨?_, ?_, ?_⟩
    · intro _
      simp [Rq.lock, Store.setPxNx, hc, Rq.lockCb, Rq.isLocked]
    · intro h
      exact absurd (by simp [Rq.lock, Store.setPxNx, hc]) h
    · intro t ht l2 st2
      simp [Rq.lock, Store.setPxNx, hc, Rq.lockCb, Rq.isLocked] at ht
      simp [Timer.fire, ← ht]

/-- Witness for C3: a successful first acquisition of task 7 on the empty
store schedules the half-interval renewal timer and emits nothing. -/
theorem lock_renewal_scheduling_witness :
    (Rq.lock cfg0 qA l0 store0 7 false).res = some "OK" ∧
    ((Rq.lock cfg0 qA l0 store0 7 false).state.lockTimeout =
        some ⟨7, true, cfg0.lockTime / 2⟩ ∧
     (Rq.lock cfg0 qA l0 store0 7 false).events = []) :=
  ⟨by decide, (lock_renewal_scheduling cfg0 qA l0 store0 7 false).1 (by decide)⟩

/-- C4: `unlock` clears the pending renewal timeout unconditionally — the
post-state timer is `none` for every instance state and store, whether or
not the compare-and-delete removed anything — so no renewal of that lock
can fire after an unlock call. -/
theorem unlock_cancels_timer (q : Rq) (l : LState) (st : Store) (id : Nat) :
    (Rq.unlock q l st id).state.lockTimeout = none := rfl

/-- C9: the instance keeps at most one pending renewal timer (the single
`lockTimeout` field): after any `lock` call the pending timer is either
gone or the fresh renewal timer of that very id, so locking a second task
silently cancels the first task's scheduled renewal. -/
theorem lock_single_pending_timer (cfg : Config) (q : Rq) (l : LState)
    (st : Store) (id : Nat) (renew : Bool) :
    ((Rq.lock cfg q l st id renew).state.lockTimeout = none ∨
     (Rq.lock cfg q l st id renew).state.lockTimeout =
       some ⟨id, true, cfg.lockTime / 2⟩) ∧
    (∀ t0 : Timer, l.lockTimeout = some t0 → t0.id ≠ id →
        (Rq.lock cfg q l st id renew).state.lockTimeout ≠ some t0) := by
  have hd : (Rq.lock cfg q l st id renew).state.lockTimeout = none ∨
      (Rq.lock cfg q l st id renew).state.lockTimeout =
        some ⟨id, true, cfg.lockTime / 2⟩ := by
    by_cases hc :
        (!renew &&
          (lookupKV st.strs (q.getKeyForId id ++ ":lock")).isSome) = true
    · exact Or.inl (by simp [Rq.lock, Store.setPxNx, hc, Rq.lockCb, Rq.isLocked])
    · exact Or.inr (by simp [Rq.lock, Store.setPxNx, hc, Rq.lockCb, Rq.isLocked])
  refine ⟨hd, ?_⟩
  intro t0 h0 hne hEq
  rcases hd with h | h
  · rw [h] at hEq
    exact Option.noConfusion hEq
  · rw [h] at hEq
    have ht : t0 = ⟨id, true, cfg.lockTime / 2⟩ := (Option.some.inj hEq).symm
    exact hne (by rw [ht])

/-- Witness for C9: with task 1's renewal pending, locking task 2 leaves no
trace of task 1's timer. -/
theorem lock_single_pending_timer_witness :
    lT1.lockTimeout = some timer1 ∧ timer1.id ≠ 2 ∧
    (Rq.lock cfg0 qA lT1 store0 2 false).state.lockTimeout ≠ some timer1 :=
  ⟨rfl, by decide,
   (lock_single_pending_timer cfg0 qA lT1 store0 2 false).2 timer1 rfl
     (by decide)⟩

/-- C10: calling `dequeue` with a non-function argument throws the
TypeError "handler must be a function" synchronously; the result is
independent of every store reply (no store operation is consulted) and, as
a thrown error, carries no outcome and hence no emitted notification. -/
theorem dequeue_nonfunction_typeerror (cfg : Config) (l : LState) (v : JVal)
    (env env' : DequeueEnv) :
    Rq.dequeueEntry cfg l (.notFunc v) env =
      .error ⟨"handler must be a function"⟩ ∧
    Rq.dequeueEntry cfg l (.notFunc v) env =
      Rq.dequeueEntry cfg l (.notFunc v) env' :=
  ⟨rfl, rfl⟩

/-- C5: a failure in any of the first three dequeue steps (blocking move,
first-acquisition lock, record load) short-circuits the pipeline: an error
notification is emitted — `couldNotLock id` in the lock-refusal case — and
the handler is never invoked; the handler is invoked with a Task exactly
when all three steps succeed (a still-blocked move invokes nothing). -/
theorem dequeue_pipeline_short_circuit (cfg : Config) (l : LState)
    (env : DequeueEnv) :
    (∀ e : QErr, env.brpop.1 = some e →
        (Rq.dequeueRun cfg l env).handlerArg = none ∧
        Event.error e ∈ (Rq.dequeueRun cfg l env).events) ∧
    (env.brpop = (none, none) →
        (Rq.dequeueRun cfg l env).handlerArg = none ∧
        (Rq.dequeueRun cfg l env).events = []) ∧
    (∀ id : Nat, env.brpop = (none, some id) → env.setReply.1 = none →
        Rq.isLocked env.setReply.2 = false →
        (Rq.dequeueRun cfg l env).handlerArg = none ∧
        Event.error (.couldNotLock id) ∈ (Rq.dequeueRun cfg l env).events) ∧
    (∀ (id : Nat) (e : QErr), env.brpop = (none, some id) →
        env.setReply.1 = some e →
        (Rq.dequeueRun cfg l env).handlerArg = none ∧
        Event.error e ∈ (Rq.dequeueRun cfg l env).events) ∧
    (∀ (id : Nat) (e : QErr), env.brpop = (none, some id) →
        env.setReply.1 = none → Rq.isLocked env.setReply.2 = true →
        env.hget.1 = some e →
        (Rq.dequeueRun cfg l env).handlerArg = none ∧
        Event.error e ∈ (Rq.dequeueRun cfg l env).events) ∧
    (∀ (id : Nat) (d : Option (List (String × String))),
        env.brpop = (none, some id) → env.setReply.1 = none →
        Rq.isLocked env.setReply.2 = true → env.hget = (none, d) →
        (Rq.dequeueRun cfg l env).handlerArg = some ⟨id, d⟩ ∧
        (Rq.dequeueRun cfg l env).events = []) := by
  refine ⟨?_, ?_, ?_, ?_, ?_, ?_⟩
  · intro e he
    simp [Rq.dequeueRun, he]
  · intro hb
    have h1 : env.brpop.1 = none := by rw [hb]
    have h2 : env.brpop.2 = none := by rw [hb]
    simp [Rq.dequeueRun, h1, h2]
  · intro id hb hs hl
    have h1 : env.brpop.1 = none := by rw [hb]
    have h2 : env.brpop.2 = some id := by rw [hb]
    simp [Rq.dequeueRun, h1, h2, hs, hl, Rq.lockCb]
  · intro id e hb hs
    have h1 : env.brpop.1 = none := by rw [hb]
    have h2 : env.brpop.2 = some id := by rw [hb]
    by_cases hl : Rq.isLocked env.setReply.2 = true
    · simp [Rq.dequeueRun, h1, h2, hs, hl, Rq.lockCb]
    · simp [Rq.dequeueRun, h1, h2, hs, hl, Rq.lockCb,
        eq_false_of_ne_true hl]
  · intro id e hb hs hl hg
    have h1 : env.brpop.1 = none := by rw [hb]
    have h2 : env.brpop.2 = some id := by rw [hb]
    simp [Rq.dequeueRun, h1, h2, hs, hl, hg, Rq.lockCb]
  · intro id d hb hs hl hg
    have h1 : env.brpop.1 = none := by rw [hb]
    have h2 : env.brpop.2 = some id := by rw [hb]
    have h3 : env.hget.1 = none := by rw [hg]
    have h4 : env.hget.2 = d := by rw [hg]
    simp [Rq.dequeueRun, h1, h2, hs, hl, h3, h4, Rq.lockCb]

/-- Witness for C5: with every step replying successfully for task 1, the
handler is invoked with the Task for id 1 carrying the loaded record. -/
theorem dequeue_pipeline_short_circuit_witness :
    envOk.brpop = (none, some 1) ∧ envOk.setReply.1 = none ∧
    Rq.isLocked envOk.setReply.2 = true ∧ envOk.hget = (none, some dataFoo) ∧
    (Rq.dequeueRun cfg0 l0 envOk).handlerArg = some ⟨1, some dataFoo⟩ :=
  ⟨rfl, rfl, by decide, rfl,
   ((dequeue_pipeline_short_circuit cfg0 l0 envOk).2.2.2.2.2 1 (some dataFoo)
     rfl rfl (by decide) rfl).1⟩

/-- C6: the waiting-list push and the record write of `enqueue` happen in
one atomic MULTI/EXEC transition (the post-INCR store is transformed by the
single `enqueueBatch` step), after which the fresh id occurs exactly once
on the waiting list and its record is fully written. -/
theorem enqueue_atomic_publish (q : Rq) (st : Store)
    (data : List (String × String)) (hW : q.nextId st ∉ st.waitingList q)
    (hR : lookupKV st.hashes (q.getKeyForId (q.nextId st)) = none) :
    ((Rq.enqueue q st data).store.waitingList q).count (q.nextId st) = 1 ∧
    lookupKV (Rq.enqueue q st data).store.hashes
      (q.getKeyForId (q.nextId st)) = some data ∧
    (Rq.enqueue q st data).store =
      (Rq.enqueueBatch q
        { st with counters := updKV st.counters q.idKey (q.nextId st) }
        (q.nextId st) data).2 := by
  refine ⟨?_, ?_, ?_⟩
  · simp [Rq.enqueue, Rq.enqueueBatch, Store.incr, Store.lpush, Store.hmset,
      Rq.nextId, Store.waitingList, lookupKV_updKV_self] at *
    simp [List.count_cons, List.count_eq_zero.mpr hW]
  · simp [Rq.enqueue, Rq.enqueueBatch, Store.incr, Store.lpush, Store.hmset,
      Rq.nextId, lookupKV_updKV_self] at *
    simp [hR]
  · simp [Rq.enqueue, Rq.enqueueBatch, Store.incr, Rq.nextId]

/-- Witness for C6: enqueueing `dataFoo` on the empty store leaves exactly
one waiting entry for id 1 and the record fully written. -/
theorem enqueue_atomic_publish_witness :
    qA.nextId store0 ∉ store0.waitingList qA ∧
    lookupKV store0.hashes (qA.getKeyForId (qA.nextId store0)) = none ∧
    (((Rq.enqueue qA store0 dataFoo).store.waitingList qA).count
        (qA.nextId store0) = 1 ∧
      lookupKV (Rq.enqueue qA store0 dataFoo).store.hashes
        (qA.getKeyForId (qA.nextId store0)) = some dataFoo) :=
  ⟨by decide, by decide,
   ⟨(enqueue_atomic_publish qA store0 dataFoo (by decide) (by decide)).1,
    (enqueue_atomic_publish qA store0 dataFoo (by decide) (by decide)).2.1⟩⟩

/-- C7 (counterexample): on an empty queue the INCR assigns id 1 and pushes
it onto the waiting list, but the value handed to enqueue's result callback
is the MULTI/EXEC reply array `[1, "OK"]`, not the id `1` — the claim that
the assigned id is reported back to the caller fails at this input. -/
theorem enqueue_id_reported_cex :
    lookupKV (Rq.enqueue qA store0 dataFoo).store.counters qA.idKey =
      some 1 ∧
    (Rq.enqueue qA store0 dataFoo).store.waitingList qA = [1] ∧
    (Rq.enqueue qA store0 dataFoo).result ≠ JVal.num 1 ∧
    (Rq.enqueue qA store0 dataFoo).result =
      JVal.arr [.num 1, .str "OK"] := by
  refine ⟨by decide, by decide, by decide, by decide⟩

/-- C7 (amended): enqueue's result callback receives the reply array of the
atomic batch — the new waiting-list length and the HMSET status — not the
assigned id; the assigned id is `nextId` (1 on an empty queue), which is
prepended to the waiting list. -/
theorem enqueue_callback_receives_batch_reply (q : Rq) (st : Store)
    (data : List (String × String)) :
    (Rq.enqueue q st data).err = none ∧
    (Rq.enqueue q st data).result =
      .arr [.num ((Rq.enqueue q st data).store.waitingList q).length,
            .str "OK"] ∧
    lookupKV (Rq.enqueue q st data).store.counters q.idKey =
      some (q.nextId st) ∧
    (Rq.enqueue q st data).store.waitingList q =
      q.nextId st :: st.waitingList q := by
  refine ⟨rfl, ?_, ?_, ?_⟩
  · simp [Rq.enqueue, Rq.enqueueBatch, Store.incr, Store.lpush, Store.hmset,
      Store.waitingList, lookupKV_updKV_self]
  · simp [Rq.enqueue, Rq.enqueueBatch, Store.incr, Store.lpush, Store.hmset,
      Rq.nextId, lookupKV_updKV_self]
  · simp [Rq.enqueue, Rq.enqueueBatch, Store.incr, Store.lpush, Store.hmset,
      Rq.nextId, Store.waitingList, lookupKV_updKV_self]

/-! ### Decimal digit facts about Nat.repr (for key collision-freeness) -/

theorem digitChar_isDigit (m : Nat) (h : m < 10) :
    (Nat.digitChar m).isDigit = true := by
  interval_cases m <;> decide

theorem toDigitsCore_isDigit (fuel : Nat) :
    ∀ (n : Nat) (acc : List Char), (∀ c ∈ acc, c.isDigit = true) →
      ∀ c ∈ Nat.toDigitsCore 10 fuel n acc, c.isDigit = true := by
  induction fuel with
  | zero => intro n acc hacc; simpa [Nat.toDigitsCore] using hacc
  | succ fuel ih =>
      intro n acc hacc c hc
      simp only [Nat.toDigitsCore] at hc
      have hcons : ∀ c' ∈ Nat.digitChar (n % 10) :: acc, c'.isDigit = true := by
        intro c' hc'
        rcases List.mem_cons.mp hc' with h | h
        · subst h
          exact digitChar_isDigit _ (Nat.mod_lt _ (by norm_num))
        · exact hacc c' h
      by_cases h0 : n / 10 = 0
      · rw [if_pos h0] at hc
        exact hcons c hc
      · rw [if_neg h0] at hc
        exact ih (n / 10) (Nat.digitChar (n % 10) :: acc) hcons c hc

theorem repr_data_isDigit (t : Nat) :
    ∀ c ∈ (Nat.repr t).data, c.isDigit = true := by
  have h : (Nat.repr t).data = Nat.toDigitsCore 10 (t + 1) t [] := rfl
  rw [h]
  exact toDigitsCore_isDigit (t + 1) t [] (by intro c hc; cases hc)

theorem toDigitsCore_ne_nil (fuel : Nat) :
    ∀ (n : Nat) (acc : List Char), acc ≠ [] →
      Nat.toDigitsCore 10 fuel n acc ≠ [] := by
  induction fuel with
  | zero => intro n acc h; simpa [Nat.toDigitsCore] using h
  | succ fuel ih =>
      intro n acc h
      simp only [Nat.toDigitsCore]
      by_cases h0 : n / 10 = 0
      · rw [if_pos h0]; exact List.cons_ne_nil _ _
      · rw [if_neg h0]
        exact ih (n / 10) _ (List.cons_ne_nil _ _)

theorem repr_data_ne_nil (t : Nat) : (Nat.repr t).data ≠ [] := by
  have h : (Nat.repr t).data = Nat.toDigitsCore 10 (t + 1) t [] := rfl
  rw [h]
  simp only [Nat.toDigitsCore]
  by_cases h0 : t / 10 = 0
  · rw [if_pos h0]; exact List.cons_ne_nil _ _
  · rw [if_neg h0]
    exact toDigitsCore_ne_nil _ _ _ (List.cons_ne_nil _ _)

theorem colon_not_mem_repr (t : Nat) : ':' ∉ (Nat.repr t).data := by
  intro h
  have := repr_data_isDigit t ':' h
  exact Bool.noConfusion this

/-- A list with a non-digit character is not the decimal representation of
any task id. -/
theorem ne_repr_of_nondigit {s : List Char} {c : Char} (hc : c ∈ s)
    (hd : c.isDigit = false) (t : Nat) : s ≠ (Nat.repr t).data := by
  intro h
  have := repr_data_isDigit t c (h ▸ hc)
  rw [hd] at this
  exact Bool.noConfusion this

/-- A list without a colon is not a lock-key suffix. -/
theorem ne_repr_lock_of_no_colon {s : List Char} (hc : ':' ∉ s) (t : Nat) :
    s ≠ (Nat.repr t).data ++ ":lock".data := by
  intro h
  apply hc
  rw [h]
  exact List.mem_append_right _ (by decide)

/-! ### Cross-queue key disjointness machinery -/

theorem exists_append_of_append_eq {α : Type} {a b c d : List α}
    (h : a ++ b = c ++ d) (hl : a.length ≤ c.length) :
    ∃ r, c = a ++ r := by
  have h1 : a <+: c ++ d := h ▸ List.prefix_append a b
  have h2 : c <+: c ++ d := List.prefix_append c d
  rcases List.prefix_of_prefix_length_le h1 h2 hl with ⟨r, hr⟩
  exact ⟨r, hr.symm⟩

/-- No valid suffix is the bare word "lock". -/
theorem suffixShape_ne_lock {s : List Char} (h : SuffixShape s) :
    s ≠ "lock".data := by
  rcases h with h | h | h | h | ⟨t, h⟩ | ⟨t, h⟩ <;> subst h
  · decide
  · decide
  · decide
  · decide
  · intro he
    exact ne_repr_of_nondigit (c := 'l') (s := "lock".data) (by decide)
      (by decide) t he.symm
  · intro he
    have := congrArg List.length he
    rw [List.length_append] at this
    have h4 : ("lock".data).length = 4 := rfl
    have h5 : (":lock".data).length = 5 := rfl
    rw [h4, h5] at this
    omega

/-- If two namespaced keys `q ++ ":" ++ s` with valid suffix shapes agree
and the first namespace is no longer than the second, the namespaces
agree. -/
theorem ns_eq_of_append_eq {q1 q2 s1 s2 : List Char}
    (hlen : q1.length ≤ q2.length)
    (he : q1 ++ (':' :: s1) = q2 ++ (':' :: s2))
    (sh1 : SuffixShape s1) (sh2 : SuffixShape s2) : q1 = q2 := by
  rcases exists_append_of_append_eq he hlen with ⟨r, hr⟩
  subst hr
  rcases r with _ | ⟨c, r2⟩
  · simp
  · exfalso
    rw [List.append_assoc] at he
    have he2 : ':' :: s1 = (c :: r2) ++ (':' :: s2) :=
      List.append_cancel_left he
    rw [List.cons_append] at he2
    have hs1 : s1 = r2 ++ (':' :: s2) := (List.cons.inj he2).2
    have hcolon : ':' ∈ s1 := by
      rw [hs1]
      exact List.mem_append_right _ (List.mem_cons_self _ _)
    rcases sh1 with h | h | h | h | ⟨t, h⟩ | ⟨t, h⟩
    · rw [h] at hcolon; exact absurd hcolon (by decide)
    · rw [h] at hcolon; exact absurd hcolon (by decide)
    · rw [h] at hcolon; exact absurd hcolon (by decide)
    · rw [h] at hcolon; exact absurd hcolon (by decide)
    · rw [h] at hcolon; exact colon_not_mem_repr t hcolon
    · -- s1 = digits ++ ":lock": analyse where the first colon falls
      rw [h] at hs1
      rcases le_total (Nat.repr t).data.length r2.length with hdl | hdl
      · rcases exists_append_of_append_eq hs1 hdl with ⟨e2, he2'⟩
        subst he2'
        rcases e2 with _ | ⟨c2, e3⟩
        · rw [List.append_nil] at hs1
          have : ':' :: ":lock".data.tail = ':' :: s2 := by
            have := List.append_cancel_left hs1
            simpa using this
          have hs2lock : s2 = "lock".data := by
            have h' := List.append_cancel_left hs1
            exact ((List.cons.inj h').2).symm
          exact suffixShape_ne_lock sh2 hs2lock
        · rw [List.append_assoc] at hs1
          have h' := List.append_cancel_left hs1
          rw [List.cons_append] at h'
          have hlk : ":lock".data.tail = e3 ++ (':' :: s2) := by
            have := (List.cons.inj h').2
            simpa using this
          have : ':' ∈ ":lock".data.tail := by
            rw [hlk]
            exact List.mem_append_right _ (List.mem_cons_self _ _)
          exact absurd this (by decide)
      · rcases exists_append_of_append_eq hs1.symm hdl with ⟨e2, he2'⟩
        rw [he2'] at hs1
        rcases e2 with _ | ⟨c2, e3⟩
        · rw [List.append_nil] at hs1
          have h' := List.append_cancel_left hs1
          have hs2lock : s2 = "lock".data := by
            exact ((List.cons.inj h'.symm).2)
          exact suffixShape_ne_lock sh2 hs2lock
        · rw [List.append_assoc] at hs1
          have h' := List.append_cancel_left hs1
          rw [List.cons_append] at h'
          have hc2 : c2 = ':' := (List.cons.inj h'.symm).1.symm
          have hc2mem : c2 ∈ (Nat.repr t).data := by
            rw [he2']
            exact List.mem_append_right _ (List.mem_cons_self _ _)
          rw [hc2] at hc2mem
          exact colon_not_mem_repr t hc2mem

/-- Namespaced keys with valid suffix shapes are injective in the
(namespace, suffix) pair. -/
theorem ns_append_inj {q1 q2 s1 s2 : List Char}
    (he : q1 ++ (':' :: s1) = q2 ++ (':' :: s2))
    (sh1 : SuffixShape s1) (sh2 : SuffixShape s2) : q1 = q2 ∧ s1 = s2 := by
  have hq : q1 = q2 := by
    rcases le_total q1.length q2.length with h | h
    · exact ns_eq_of_append_eq h he sh1 sh2
    · exact (ns_eq_of_append_eq h he.symm sh2 sh1).symm
  subst hq
  have h' := List.append_cancel_left he
  exact ⟨rfl, (List.cons.inj h').2⟩

/-- Every derived key decomposes as `rq:` ++ queue name ++ `:` ++ a valid
suffix at the character level. -/
theorem derivedKey_shape {q : Rq} {k : String} (h : DerivedKey q k) :
    ∃ s : List Char,
      k.data = "rq:".data ++ (q.queue.data ++ (':' :: s)) ∧ SuffixShape s := by
  have hcolon : (":".data : List Char) = [':'] := rfl
  cases h with
  | idK =>
      refine ⟨"id".data, ?_, Or.inl rfl⟩
      simp [Rq.idKey, Rq.pfx, String.data_append, hcolon]
  | waitingK =>
      refine ⟨"waiting".data, ?_, Or.inr (Or.inl rfl)⟩
      simp [Rq.waitingKey, Rq.pfx, String.data_append, hcolon]
  | workingK =>
      refine ⟨"working".data, ?_, Or.inr (Or.inr (Or.inl rfl))⟩
      simp [Rq.workingKey, Rq.pfx, String.data_append, hcolon]
  | completedK =>
      refine ⟨"completed".data, ?_, Or.inr (Or.inr (Or.inr (Or.inl rfl)))⟩
      simp [Rq.completedKey, Rq.pfx, String.data_append, hcolon]
  | recordK t =>
      refine ⟨(Nat.repr t).data, ?_,
        Or.inr (Or.inr (Or.inr (Or.inr (Or.inl ⟨t, rfl⟩))))⟩
      simp [Rq.getKeyForId, Rq.pfx, String.data_append, hcolon]
  | lockK t =>
      refine ⟨(Nat.repr t).data ++ ":lock".data, ?_,
        Or.inr (Or.inr (Or.inr (Or.inr (Or.inr ⟨t, rfl⟩))))⟩
      simp [Rq.lockKeyFor, Rq.getKeyForId, Rq.pfx, String.data_append, hcolon]

/-- Keys sharing this queue's namespace are distinct when their suffixes
differ at the character level. -/
theorem pfx_append_ne (q : Rq) (a b : String) (h : a.data ≠ b.data) :
    q.pfx ++ a ≠ q.pfx ++ b := by
  intro he
  apply h
  have hd := congrArg String.data he
  rw [String.data_append, String.data_append] at hd
  exact List.append_cancel_left hd

/-- C8: key derivation is collision-free: for any queue name and task id
the six derived keys (id, waiting, working, completed, record, lock) are
pairwise distinct, and no derived key of one queue equals any derived key
of a differently-named queue (for any task ids).  Determinism is immediate:
the derivations are pure functions of the queue name and task id. -/
theorem key_derivation_collision_free (q1 q2 : Rq) (t : Nat) :
    List.Pairwise (· ≠ ·)
      [q1.idKey, q1.waitingKey, q1.workingKey, q1.completedKey,
       q1.getKeyForId t, q1.lockKeyFor t] ∧
    (q1.queue ≠ q2.queue → ∀ k1 k2 : String,
        DerivedKey q1 k1 → DerivedKey q2 k2 → k1 ≠ k2) := by
  constructor
  · have hl : q1.lockKeyFor t = q1.pfx ++ (Nat.repr t ++ ":lock") := by
      rw [Rq.lockKeyFor, Rq.getKeyForId, String.append_assoc]
    have hlock_data : (Nat.repr t ++ ":lock").data =
        (Nat.repr t).data ++ ":lock".data := String.data_append _ _
    have hid : q1.idKey = q1.pfx ++ "id" := rfl
    have hwait : q1.waitingKey = q1.pfx ++ "waiting" := rfl
    have hwork : q1.workingKey = q1.pfx ++ "working" := rfl
    have hcomp : q1.completedKey = q1.pfx ++ "completed" := rfl
    have hrec : q1.getKeyForId t = q1.pfx ++ Nat.repr t := rfl
    have hColonId : ("id".data : List Char) ≠ (Nat.repr t ++ ":lock").data := by
      rw [hlock_data]; exact ne_repr_lock_of_no_colon (by decide) t
    have hColonWait : ("waiting".data : List Char) ≠
        (Nat.repr t ++ ":lock").data := by
      rw [hlock_data]; exact ne_repr_lock_of_no_colon (by decide) t
    have hColonWork : ("working".data : List Char) ≠
        (Nat.repr t ++ ":lock").data := by
      rw [hlock_data]; exact ne_repr_lock_of_no_colon (by decide) t
    have hColonComp : ("completed".data : List Char) ≠
        (Nat.repr t ++ ":lock").data := by
      rw [hlock_data]; exact ne_repr_lock_of_no_colon (by decide) t
    have hRecLock : ((Nat.repr t).data : List Char) ≠
        (Nat.repr t ++ ":lock").data := by
      rw [hlock_data]
      intro h
      have hlen := congrArg List.length h
      rw [List.length_append] at hlen
      have h5 : ((":lock".data : List Char)).length = 5 := rfl
      omega
    rw [hl, hid, hwait, hwork, hcomp, hrec]
    refine List.Pairwise.cons ?_ (List.Pairwise.cons ?_ (List.Pairwise.cons ?_
      (List.Pairwise.cons ?_ (List.Pairwise.cons ?_
        (List.Pairwise.cons ?_ List.Pairwise.nil)))))
    · intro x hx
      simp only [List.mem_cons, List.not_mem_nil, or_false] at hx
      rcases hx with rfl | rfl | rfl | rfl | rfl
      · exact pfx_append_ne q1 _ _ (by decide)
      · exact pfx_append_ne q1 _ _ (by decide)
      · exact pfx_append_ne q1 _ _ (by decide)
      · exact pfx_append_ne q1 _ _
          (ne_repr_of_nondigit (c := 'i') (by decide) (by decide) t)
      · exact pfx_append_ne q1 _ _ hColonId
    · intro x hx
      simp only [List.mem_cons, List.not_mem_nil, or_false] at hx
      rcases hx with rfl | rfl | rfl | rfl
      · exact pfx_append_ne q1 _ _ (by decide)
      · exact pfx_append_ne q1 _ _ (by decide)
      · exact pfx_append_ne q1 _ _
          (ne_repr_of_nondigit (c := 'w') (by decide) (by decide) t)
      · exact pfx_append_ne q1 _ _ hColonWait
    · intro x hx
      simp only [List.mem_cons, List.not_mem_nil, or_false] at hx
      rcases hx with rfl | rfl | rfl
      · exact pfx_append_ne q1 _ _ (by decide)
      · exact pfx_append_ne q1 _ _
          (ne_repr_of_nondigit (c := 'w') (by decide) (by decide) t)
      · exact pfx_append_ne q1 _ _ hColonWork
    · intro x hx
      simp only [List.mem_cons, List.not_mem_nil, or_false] at hx
      rcases hx with rfl | rfl
      · exact pfx_append_ne q1 _ _
          (ne_repr_of_nondigit (c := 'c') (by decide) (by decide) t)
      · exact pfx_append_ne q1 _ _ hColonComp
    · intro x hx
      simp only [List.mem_cons, List.not_mem_nil, or_false] at hx
      rcases hx with rfl
      · exact pfx_append_ne q1 _ _ hRecLock
    · intro x hx
      exact absurd hx (List.not_mem_nil x)
  · intro hq k1 k2 h1 h2 he
    rcases derivedKey_shape h1 with ⟨s1, hd1, hs1⟩
    rcases derivedKey_shape h2 with ⟨s2, hd2, hs2⟩
    have hdata := congrArg String.data he
    rw [hd1, hd2] at hdata
    have h3 : q1.queue.data ++ (':' :: s1) = q2.queue.data ++ (':' :: s2) :=
      List.append_cancel_left hdata
    exact hq (String.ext (ns_append_inj h3 hs1 hs2).1)

/-- Witness for C8: the two sample queues have different names, and their
id keys differ. -/
theorem key_derivation_collision_free_witness :
    qA.queue ≠ qB.queue ∧ qA.idKey ≠ qB.idKey :=
  ⟨by decide,
   (key_derivation_collision_free qA qB 7).2 (by decide) qA.idKey qB.idKey
     DerivedKey.idK DerivedKey.idK⟩

end RqModel
